import Mathlib

/-!
Shallow embedding of the maid-backend-system route handlers.

Each definition below transcribes one handler (or helper) from the
TypeScript source into a pure Lean function: the database is passed as
explicit lists of rows, the blob store as a list of object keys, the
request clock (`new Date()` / `CURRENT_TIMESTAMP`) as a `now : Nat`
parameter, and the randomly generated object key of `uploadR2Object` as
an explicit `key : String` parameter.  Fallible handlers return
`Except (Nat × String) _ × state`: the `Nat` is the HTTP status code and
the `String` the response message of `createErrorResponse`; successful
responses carry the response message and the returned row.
-/

namespace MaidBackend

/-- Row of the `maid` table (drizzle schema: id text PK, name text not
null, image_url text nullable, is_active / is_instax_available booleans). -/
structure MaidRow where
  id : String
  name : String
  imageUrl : Option String
  isActive : Bool
  isInstaxAvailable : Bool
deriving Repr, DecidableEq

/-- Row of the `user` table (id text PK, name text not null, status
nullable, maid_id / instax_maid_id nullable references, seat_id nullable
integer, is_valid boolean, created_at / updated_at timestamps modelled as
naturals). -/
structure UserRow where
  id : String
  name : String
  status : Option String
  maidId : Option String
  instaxMaidId : Option String
  seatId : Option Int
  isValid : Bool
  createdAt : Nat
  updatedAt : Nat
deriving Repr, DecidableEq

/-- Row of the `menu` table. -/
structure MenuRow where
  id : Nat
  name : String
  description : Option String
  stock : Int
  imageUrl : Option String
  createdAt : Nat
  updatedAt : Nat
deriving Repr, DecidableEq

/-- Order state enum `pending | preparing | served`. -/
inductive OrderState where
  | pending
  | preparing
  | served
deriving Repr, DecidableEq

/-- Row of the `order` table. -/
structure OrderRow where
  id : Nat
  userId : String
  menuId : Nat
  state : OrderState
  createdAt : Nat
  updatedAt : Nat
deriving Repr, DecidableEq

/-- Row of the `instax` table. -/
structure InstaxRow where
  id : Nat
  userId : String
  maidId : String
  imageUrl : Option String
  createdAt : Nat
deriving Repr, DecidableEq

/-- Row of the `instax_history` table. -/
structure InstaxHistoryRow where
  id : Nat
  instaxId : Nat
  imageUrl : String
  archivedAt : Nat
deriving Repr, DecidableEq

/-- Uploaded multipart file: only the fields the handlers inspect
(`file.name`, `file.size`). -/
structure FileData where
  fname : String
  size : Nat
deriving Repr, DecidableEq

/-! ### JavaScript string helpers

The handlers call the platform's `String.prototype.trim` and
`String.prototype.toLowerCase`.  They are modelled here as structurally
recursive Lean functions (ASCII whitespace and ASCII case folding, which
covers every string literal the handlers compare against). -/

/-- ASCII whitespace, the characters `trim` strips in the inputs that occur
in this codebase. -/
def isWsChar (c : Char) : Bool :=
  c = ' ' || c = '\t' || c = '\n' || c = '\r'

/-- Model of JavaScript `s.trim()`. -/
def jsTrim (s : String) : String :=
  ⟨((s.data.dropWhile isWsChar).reverse.dropWhile isWsChar).reverse⟩

/-- ASCII lowercase of one character. -/
def lowerChar (c : Char) : Char :=
  if 'A' ≤ c && c ≤ 'Z' then Char.ofNat (c.toNat + 32) else c

/-- Model of JavaScript `s.toLowerCase()`. -/
def jsToLower (s : String) : String :=
  ⟨s.data.map lowerChar⟩

/-! ### C8: engagement-state derivation (src/routes/maids.ts, deriveEngagementState) -/

/-- Derived engagement state of a user assigned to a maid. -/
inductive EngagementState where
  | serving
  | leaving
deriving Repr, DecidableEq

/-- `deriveEngagementState` from maids.ts: `if (!status) return 'serving';
return status.trim().toLowerCase() === 'leaving' ? 'leaving' : 'serving'`.
JavaScript treats `null`, `undefined` and the empty string as falsy, hence
the extra empty-string case. -/
def deriveEngagementState (status : Option String) : EngagementState :=
  match status with
  | none => .serving
  | some s =>
    if s = "" then .serving
    else if jsToLower (jsTrim s) = "leaving" then .leaving else .serving

/-! ### C6: order state update (src/routes/orders.ts, PATCH /api/orders/:id) -/

/-- PATCH /api/orders/:id after body validation: `id` is the parsed path
parameter (the route regex `^[1-9]\d*$` guarantees `1 ≤ id`), `newState`
the validated body state.  If the stored state equals the requested one the
handler short-circuits with "No changes applied." and performs no database
write; otherwise it writes the new state and refreshes `updated_at`. -/
def orderUpdate (ordersL : List OrderRow) (id : Nat) (newState : OrderState)
    (now : Nat) : Except (Nat × String) (String × OrderRow) × List OrderRow :=
  if id < 1 then (.error (400, "Invalid order id."), ordersL)
  else
    match ordersL.find? (fun o => o.id = id) with
    | none => (.error (404, "Order not found."), ordersL)
    | some existing =>
      if existing.state = newState then
        (.ok ("No changes applied.", existing), ordersL)
      else
        (.ok ("Order updated successfully.", { existing with state := newState, updatedAt := now }),
         ordersL.map (fun o =>
           if o.id = id then { o with state := newState, updatedAt := now } else o))

end MaidBackend

namespace MaidBackend

/-- Helper: `List.find?` over a list updated pointwise commutes with the
update when the update preserves the search predicate. -/
theorem find?_map_of_pred {α : Type} (l : List α) (p q : α → Bool) (f : α → α)
    (hpq : ∀ a, q (f a) = p a) (x : α) (hx : l.find? p = some x) :
    (l.map f).find? q = some (f x) := by
  have h1 : (q ∘ f) = p := funext hpq
  rw [List.find?_map, h1, hx]
  rfl

/-! ### C7: seat occupancy resolution (src/routes/users.ts, GET /api/users/seat/:seatId) -/

/-- Model of drizzle `findFirst` with `orderBy desc(updatedAt)`: the first
row of the input after sorting by `updatedAt` descending, i.e. the earliest
listed row with maximal `updatedAt`. -/
def findFirstByUpdatedDesc : List UserRow → Option UserRow
  | [] => none
  | u :: rest =>
    match findFirstByUpdatedDesc rest with
    | none => some u
    | some b => if b.updatedAt > u.updatedAt then some b else some u

/-- GET /api/users/seat/:seatId after auth: parses the seat id
(`z.coerce.number().int().min(1)`), then `findFirst` on
`seatId = seat ∧ isValid = true` ordered by `updatedAt` descending,
404 when no row matches. -/
def getUserBySeat (usersL : List UserRow) (seatId : Int) :
    Except (Nat × String) UserRow :=
  if seatId < 1 then .error (400, "Invalid seat id.")
  else
    match findFirstByUpdatedDesc
        (usersL.filter (fun u => u.seatId = some seatId ∧ u.isValid = true)) with
    | none => .error (404, "No active user found for the specified seat.")
    | some u => .ok u

end MaidBackend

namespace MaidBackend

theorem findFirstByUpdatedDesc_eq_none {l : List UserRow} :
    findFirstByUpdatedDesc l = none ↔ l = [] := by
  cases l with
  | nil => simp [findFirstByUpdatedDesc]
  | cons u rest =>
    simp only [findFirstByUpdatedDesc]
    cases findFirstByUpdatedDesc rest with
    | none => simp
    | some b =>
      by_cases h : b.updatedAt > u.updatedAt <;> simp [h]

theorem findFirstByUpdatedDesc_mem {l : List UserRow} {u : UserRow}
    (h : findFirstByUpdatedDesc l = some u) : u ∈ l := by
  induction l with
  | nil => simp [findFirstByUpdatedDesc] at h
  | cons a rest ih =>
    rw [findFirstByUpdatedDesc] at h
    split at h
    · injection h with h'
      subst h'
      exact List.mem_cons_self _ _
    · next b hr =>
      split at h
      · injection h with h'
        subst h'
        exact List.mem_cons_of_mem _ (ih hr)
      · injection h with h'
        subst h'
        exact List.mem_cons_self _ _

theorem findFirstByUpdatedDesc_max : ∀ {l : List UserRow} {u : UserRow},
    findFirstByUpdatedDesc l = some u → ∀ v ∈ l, v.updatedAt ≤ u.updatedAt := by
  intro l
  induction l with
  | nil =>
    intro u h
    simp [findFirstByUpdatedDesc] at h
  | cons a rest ih =>
    intro u h v hv
    rw [findFirstByUpdatedDesc] at h
    split at h
    · next hr =>
      injection h with h'
      subst h'
      have hrest : rest = [] := findFirstByUpdatedDesc_eq_none.mp hr
      subst hrest
      simp at hv
      subst hv
      exact Nat.le_refl _
    · next b hr =>
      rcases List.mem_cons.mp hv with hva | hvr
      · subst hva
        split at h
        · next hgt =>
          injection h with h'
          subst h'
          exact Nat.le_of_lt hgt
        · injection h with h'
          subst h'
          exact Nat.le_refl _
      · split at h
        · injection h with h'
          subst h'
          exact ih hr v hvr
        · next hgt =>
          injection h with h'
          subst h'
          exact Nat.le_trans (ih hr v hvr) (Nat.le_of_not_lt hgt)

end MaidBackend

namespace MaidBackend

/-- C8: For every User status value (string or null), the derived
engagement_state equals "leaving" iff the status text, after trimming and
lowercasing, equals exactly "leaving"; in every other case, including null
or empty status, it equals "serving". -/
theorem engagement_state_leaving_iff (status : Option String) :
    (deriveEngagementState status = .leaving ↔
      ∃ s, status = some s ∧ jsToLower (jsTrim s) = "leaving") ∧
    (deriveEngagementState status ≠ .leaving → deriveEngagementState status = .serving) := by
  constructor
  · cases status with
    | none => simp [deriveEngagementState]
    | some s =>
      by_cases hs : s = ""
      · subst hs
        simp only [deriveEngagementState, if_pos rfl]
        constructor
        · intro h; exact absurd h (by simp)
        · rintro ⟨t, ht, htriv⟩
          injection ht with ht'
          subst ht'
          exact absurd htriv (by decide)
      · simp only [deriveEngagementState, if_neg hs]
        by_cases hl : jsToLower (jsTrim s) = "leaving"
        · simp [hl]
        · simp [hl]
  · intro h
    cases hd : deriveEngagementState status with
    | serving => rfl
    | leaving => exact absurd hd h

end MaidBackend

namespace MaidBackend

/-- C6: Order update is idempotent in the no-change case: when the
requested state equals the stored state the handler answers
"No changes applied." and leaves the stored rows (including `updated_at`)
untouched, and a second identical call behaves the same; when it differs,
the stored state is set and `updated_at` refreshed. -/
theorem order_update_no_change (ordersL : List OrderRow) (id : Nat) (s : OrderState)
    (now now2 : Nat) (ex : OrderRow)
    (hid : 1 ≤ id)
    (hfind : ordersL.find? (fun o => o.id = id) = some ex) :
    (ex.state = s →
      orderUpdate ordersL id s now = (.ok ("No changes applied.", ex), ordersL) ∧
      orderUpdate (orderUpdate ordersL id s now).2 id s now2 =
        (.ok ("No changes applied.", ex), ordersL)) ∧
    (ex.state ≠ s →
      (orderUpdate ordersL id s now).1 =
        .ok ("Order updated successfully.", { ex with state := s, updatedAt := now }) ∧
      (orderUpdate ordersL id s now).2.find? (fun o => o.id = id) =
        some { ex with state := s, updatedAt := now }) := by
  have hlt : ¬ id < 1 := by omega
  have hexid : ex.id = id := by
    have := List.find?_some hfind
    simpa using this
  constructor
  · intro hstate
    have h1 : orderUpdate ordersL id s now = (.ok ("No changes applied.", ex), ordersL) := by
      simp [orderUpdate, hlt, hfind, hstate]
    refine ⟨h1, ?_⟩
    rw [h1]
    simp [orderUpdate, hlt, hfind, hstate]
  · intro hstate
    constructor
    · simp [orderUpdate, hlt, hfind, hstate]
    · have h2 : (orderUpdate ordersL id s now).2 =
          ordersL.map (fun o => if o.id = id then { o with state := s, updatedAt := now } else o) := by
        simp [orderUpdate, hlt, hfind, hstate]
      rw [h2]
      have happ := find?_map_of_pred ordersL
        (fun o => o.id = id) (fun o => o.id = id)
        (fun o => if o.id = id then { o with state := s, updatedAt := now } else o)
        (fun a => by by_cases h : a.id = id <;> simp [h]) ex hfind
      rw [happ]
      simp [hexid]

/-- Concrete order row for the C6 witness. -/
def orderC6 : OrderRow :=
  { id := 1, userId := "u1", menuId := 3, state := .pending, createdAt := 10, updatedAt := 10 }

/-- Concrete order list for the C6 witness. -/
def ordersC6 : List OrderRow := [orderC6]

/-- Witness for C6 at a concrete input: order 1 is pending; updating it to
pending twice answers "No changes applied." and keeps the rows. -/
theorem order_update_no_change_witness :
    (orderC6.state = OrderState.pending →
      orderUpdate ordersC6 1 .pending 99 = (.ok ("No changes applied.", orderC6), ordersC6) ∧
      orderUpdate (orderUpdate ordersC6 1 .pending 99).2 1 .pending 100 =
        (.ok ("No changes applied.", orderC6), ordersC6)) ∧
    (orderC6.state ≠ OrderState.pending →
      (orderUpdate ordersC6 1 .pending 99).1 =
        .ok ("Order updated successfully.", { orderC6 with state := .pending, updatedAt := 99 }) ∧
      (orderUpdate ordersC6 1 .pending 99).2.find? (fun o => o.id = 1) =
        some { orderC6 with state := .pending, updatedAt := 99 }) :=
  order_update_no_change ordersC6 1 .pending 99 100 orderC6 (by decide) (by decide)

/-- C7: get-by-seat returns the most-recently-updated valid user row for
that seat, and 404 when no valid row occupies it. -/
theorem get_user_by_seat_spec (usersL : List UserRow) (seatId : Int)
    (hseat : 1 ≤ seatId) :
    (usersL.filter (fun u => u.seatId = some seatId ∧ u.isValid = true) = [] →
      getUserBySeat usersL seatId =
        .error (404, "No active user found for the specified seat.")) ∧
    (usersL.filter (fun u => u.seatId = some seatId ∧ u.isValid = true) ≠ [] →
      ∃ u, getUserBySeat usersL seatId = .ok u ∧
        u ∈ usersL.filter (fun x => x.seatId = some seatId ∧ x.isValid = true) ∧
        ∀ v ∈ usersL.filter (fun x => x.seatId = some seatId ∧ x.isValid = true),
          v.updatedAt ≤ u.updatedAt) := by
  have hlt : ¬ seatId < 1 := by omega
  constructor
  · intro hempty
    have hnone : findFirstByUpdatedDesc
        (usersL.filter (fun u => u.seatId = some seatId ∧ u.isValid = true)) = none := by
      rw [findFirstByUpdatedDesc_eq_none]
      exact hempty
    simp only [getUserBySeat, if_neg hlt, hnone]
  · intro hne
    cases hf : findFirstByUpdatedDesc
        (usersL.filter (fun u => u.seatId = some seatId ∧ u.isValid = true)) with
    | none => exact absurd (findFirstByUpdatedDesc_eq_none.mp hf) hne
    | some u =>
      refine ⟨u, ?_, findFirstByUpdatedDesc_mem hf, findFirstByUpdatedDesc_max hf⟩
      simp only [getUserBySeat, if_neg hlt, hf]

/-- Concrete user list for the C7 witness: two valid users at seat 12, one
updated later, plus an invalid one updated last. -/
def usersC7 : List UserRow :=
  [{ id := "a", name := "", status := none, maidId := none, instaxMaidId := none,
     seatId := some 12, isValid := true, createdAt := 1, updatedAt := 5 },
   { id := "b", name := "", status := none, maidId := none, instaxMaidId := none,
     seatId := some 12, isValid := true, createdAt := 1, updatedAt := 9 },
   { id := "c", name := "", status := none, maidId := none, instaxMaidId := none,
     seatId := some 12, isValid := false, createdAt := 1, updatedAt := 20 }]

/-- Witness for C7 at a concrete input. -/
theorem get_user_by_seat_witness :
    usersC7.filter (fun u => u.seatId = some 12 ∧ u.isValid = true) ≠ [] ∧
    (∃ u, getUserBySeat usersC7 12 = .ok u ∧
      u ∈ usersC7.filter (fun x => x.seatId = some 12 ∧ x.isValid = true) ∧
      ∀ v ∈ usersC7.filter (fun x => x.seatId = some 12 ∧ x.isValid = true),
        v.updatedAt ≤ u.updatedAt) :=
  ⟨by decide, (get_user_by_seat_spec usersC7 12 (by decide)).2 (by decide)⟩

end MaidBackend

namespace MaidBackend

/-- Witness for C8 at concrete inputs. -/
theorem engagement_state_witness :
    deriveEngagementState (some " LEAVING ") = .leaving ∧
    deriveEngagementState (some "happy") = .serving ∧
    deriveEngagementState none = .serving :=
  ⟨(engagement_state_leaving_iff (some " LEAVING ")).1.mpr ⟨" LEAVING ", rfl, by decide⟩,
   (engagement_state_leaving_iff (some "happy")).2 (by decide),
   (engagement_state_leaving_iff none).2 (by decide)⟩

/-! ### C9: the two embedded revisions of GET /api/maids (src/routes/maids.ts) -/

/-- Insertion into a list sorted by `id` ascending. -/
def insertMaidById (m : MaidRow) : List MaidRow → List MaidRow
  | [] => [m]
  | x :: xs => if m.id ≤ x.id then m :: x :: xs else x :: insertMaidById m xs

/-- `ORDER BY maid.id` of the drizzle query, as insertion sort. -/
def sortMaidsById : List MaidRow → List MaidRow
  | [] => []
  | x :: xs => insertMaidById x (sortMaidsById xs)

/-- Earlier revision of GET /api/maids: pagination validation
(`page ≥ 1`, `1 ≤ per_page ≤ 100`), then `let isActiveFilter = true`
overridden only when the query parameter is supplied — an omitted
`is_active` therefore filters on `is_active = true`. -/
def listMaidsEarlier (ms : List MaidRow) (page per : Int) (isActive : Option Bool) :
    Except (Nat × String) (List MaidRow) :=
  if page < 1 ∨ per < 1 ∨ per > 100 then .error (400, "Invalid pagination parameters.")
  else
    let f := isActive.getD true
    .ok (((sortMaidsById (ms.filter (fun m => m.isActive = f))).drop
      ((page - 1) * per).toNat).take per.toNat)

/-- Later revision of GET /api/maids: same validation, but
`isActiveFilter : boolean | undefined` stays undefined when the query
parameter is omitted and the `where` clause is then skipped entirely. -/
def listMaidsLater (ms : List MaidRow) (page per : Int) (isActive : Option Bool) :
    Except (Nat × String) (List MaidRow) :=
  if page < 1 ∨ per < 1 ∨ per > 100 then .error (400, "Invalid pagination parameters.")
  else
    match isActive with
    | none =>
      .ok (((sortMaidsById ms).drop ((page - 1) * per).toNat).take per.toNat)
    | some f =>
      .ok (((sortMaidsById (ms.filter (fun m => m.isActive = f))).drop
        ((page - 1) * per).toNat).take per.toNat)

/-- C9: the two embedded revisions of Maid list agree whenever `is_active`
is explicitly supplied; when it is omitted the earlier revision filters on
`is_active = true` while the later one applies no filter and pages the full
ordered list, and the two genuinely differ on a concrete database. -/
theorem maid_list_revisions (ms : List MaidRow) (page per : Int) :
    (∀ b, listMaidsEarlier ms page per (some b) = listMaidsLater ms page per (some b)) ∧
    (listMaidsEarlier ms page per none = listMaidsEarlier ms page per (some true)) ∧
    (¬ (page < 1 ∨ per < 1 ∨ per > 100) →
      listMaidsLater ms page per none =
        .ok (((sortMaidsById ms).drop ((page - 1) * per).toNat).take per.toNat)) ∧
    (∃ ms2 : List MaidRow, listMaidsEarlier ms2 1 20 none ≠ listMaidsLater ms2 1 20 none) := by
  refine ⟨fun b => rfl, rfl, fun h => by simp [listMaidsLater, h], ?_⟩
  refine ⟨[{ id := "a", name := "x", imageUrl := none,
             isActive := false, isInstaxAvailable := false }], ?_⟩
  intro hcontra
  have hE : listMaidsEarlier
      [{ id := "a", name := "x", imageUrl := none,
         isActive := false, isInstaxAvailable := false }] 1 20 none = .ok [] := rfl
  have hL : listMaidsLater
      [{ id := "a", name := "x", imageUrl := none,
         isActive := false, isInstaxAvailable := false }] 1 20 none =
      .ok [{ id := "a", name := "x", imageUrl := none,
             isActive := false, isInstaxAvailable := false }] := rfl
  rw [hE, hL] at hcontra
  simp at hcontra

/-- Concrete database for the C9 witness. -/
def maidsC9 : List MaidRow :=
  [{ id := "b", name := "B", imageUrl := none, isActive := true, isInstaxAvailable := false },
   { id := "a", name := "A", imageUrl := none, isActive := false, isInstaxAvailable := false }]

/-- Witness for C9 at a concrete input: with pagination valid, the later
revision with `is_active` omitted pages the full ordered list. -/
theorem maid_list_revisions_witness :
    listMaidsLater maidsC9 1 20 none =
      .ok (((sortMaidsById maidsC9).drop (((1 : Int) - 1) * 20).toNat).take (20 : Int).toNat) :=
  (maid_list_revisions maidsC9 1 20).2.2.1 (by decide)

end MaidBackend

namespace MaidBackend

/-! ### C5 and C10: PATCH /api/maids/:id (later revision, src/routes/maids.ts) -/

/-- Multipart form of the maid update request: raw `name` form value (when
it was a string), `image` file, raw `is_instax_available` form value. -/
structure MaidPatchMultipart where
  name : Option String
  image : Option FileData
  isInstaxRaw : Option String
deriving Repr, DecidableEq

/-- JSON body of the maid update request before zod validation. -/
structure MaidPatchJson where
  name : Option String
  isInstaxAvailable : Option Bool
deriving Repr, DecidableEq

/-- The two content-type variants of PATCH /api/maids/:id; `json none`
models an unparsable body (`c.req.json().catch(() => null)`). -/
inductive MaidPatchReq where
  | multipart (form : MaidPatchMultipart)
  | json (body : Option MaidPatchJson)
deriving Repr, DecidableEq

/-- `maids` table plus the R2 bucket contents (object keys). -/
structure MaidState where
  maids : List MaidRow
  blobs : List String
deriving Repr, DecidableEq

/-- Boolean-string parsing of the multipart `is_instax_available` value:
`['true','1','yes','on']` / `['false','0','no','off']` after trim and
lowercase, anything else invalid. -/
def parseInstaxFlag (raw : String) : Option Bool :=
  let n := jsToLower (jsTrim raw)
  if n = "true" ∨ n = "1" ∨ n = "yes" ∨ n = "on" then some true
  else if n = "false" ∨ n = "0" ∨ n = "no" ∨ n = "off" then some false
  else none

/-- Boundary resolution of PATCH /api/maids/:id: multipart keeps `name`
only when its trim is non-empty and the image only when non-empty, rejects
an invalid flag string and a form with no fields; the JSON path runs the
zod schema (`name` min length 1, refine: at least one field present) and
then trims `name` (possibly to the empty string). -/
def resolveMaidPatch (req : MaidPatchReq) :
    Except (Nat × String) (Option String × Option FileData × Option Bool) :=
  match req with
  | .multipart form =>
    let name : Option String :=
      match form.name with
      | some raw => if 0 < (jsTrim raw).length then some (jsTrim raw) else none
      | none => none
    let imageFile : Option FileData :=
      match form.image with
      | some f => if 0 < f.size then some f else none
      | none => none
    match form.isInstaxRaw with
    | some raw =>
      match parseInstaxFlag raw with
      | none => .error (400, "Invalid is_instax_available value. Use true or false.")
      | some b => .ok (name, imageFile, some b)
    | none =>
      if name = none ∧ imageFile = none then
        .error (400, "No updatable fields provided.")
      else
        .ok (name, imageFile, none)
  | .json none => .error (400, "Invalid request body.")
  | .json (some body) =>
    let nameInvalid : Bool :=
      match body.name with
      | some n => n.length < 1
      | none => false
    if nameInvalid then
      .error (400, "Invalid request body.")
    else if body.name = none ∧ body.isInstaxAvailable = none then
      .error (400, "Invalid request body.")
    else
      .ok (body.name.map jsTrim, none, body.isInstaxAvailable)

/-- PATCH /api/maids/:id (later revision): resolve the request, look up the
maid (404 if absent), assemble `updateValues` — `name` only when truthy
(non-empty), the flag when provided, the image key after uploading the new
blob and deleting the old one — and either answer "No changes applied."
without touching the database or write the assembled values. -/
def maidUpdate (st : MaidState) (id : String) (req : MaidPatchReq) (newKey : String) :
    Except (Nat × String) (String × MaidRow) × MaidState :=
  match resolveMaidPatch req with
  | .error e => (.error e, st)
  | .ok (name, imageFile, flag) =>
    match st.maids.find? (fun m => m.id = id) with
    | none => (.error (404, "Maid not found."), st)
    | some existing =>
      let nameVal : Option String :=
        match name with
        | some n => if n = "" then none else some n
        | none => none
      let blobs1 : List String :=
        match imageFile with
        | some _ =>
          match existing.imageUrl with
          | some old => (newKey :: st.blobs).erase old
          | none => newKey :: st.blobs
        | none => st.blobs
      let applyVals : MaidRow → MaidRow := fun m =>
        let m1 := match nameVal with | some n => { m with name := n } | none => m
        let m2 := match flag with | some b => { m1 with isInstaxAvailable := b } | none => m1
        match imageFile with | some _ => { m2 with imageUrl := some newKey } | none => m2
      if nameVal = none ∧ flag = none ∧ imageFile = none then
        (.ok ("No changes applied.", existing), st)
      else
        (.ok ("Maid updated successfully.", applyVals existing),
         { maids := st.maids.map (fun m => if m.id = id then applyVals m else m),
           blobs := blobs1 })

end MaidBackend

namespace MaidBackend

/-- C10: a JSON maid update whose `name` is whitespace-only (non-empty, so
it passes the zod min-length check) and which supplies no other field is
accepted, trims the name to the empty string, drops it, and answers
"No changes applied." while the stored state is untouched. -/
theorem maid_update_blank_name_noop (st : MaidState) (id : String) (raw : String)
    (newKey : String) (ex : MaidRow)
    (hlen : 1 ≤ raw.length) (htrim : jsTrim raw = "")
    (hfind : st.maids.find? (fun m => m.id = id) = some ex) :
    maidUpdate st id (.json (some { name := some raw, isInstaxAvailable := none })) newKey =
      (.ok ("No changes applied.", ex), st) := by
  have hnl : ¬ raw.length < 1 := by omega
  simp [maidUpdate, resolveMaidPatch, hnl, hfind, htrim]

/-- Concrete state for the C5/C10 maid-update examples. -/
def maidC5 : MaidRow :=
  { id := "m1", name := "Alice", imageUrl := none, isActive := true, isInstaxAvailable := false }

/-- Concrete maid state for the C5/C10 maid-update examples. -/
def stC5 : MaidState := { maids := [maidC5], blobs := [] }

/-- Witness for C10 at a concrete input: a single-space name. -/
theorem maid_update_blank_name_noop_witness :
    maidUpdate stC5 "m1" (.json (some { name := some " ", isInstaxAvailable := none })) "k" =
      (.ok ("No changes applied.", maidC5), stC5) :=
  maid_update_blank_name_noop stC5 "m1" " " "k" maidC5 (by decide) (by decide) (by decide)

/-- Counterexample for C5 as stated: a maid update request supplying no
fields at all (on an existing maid) is answered with a 400 validation
error, not with a "No changes applied." success. -/
theorem maid_update_empty_request_counterexample :
    maidUpdate stC5 "m1" (.multipart { name := none, image := none, isInstaxRaw := none }) "k" =
      (.error (400, "No updatable fields provided."), stC5) := rfl

/-- C5 (amended): a maid update request that supplies no fields at all is
rejected with a 400 validation error ("No updatable fields provided." on
the multipart path, "Invalid request body." on the JSON path) and the
stored state is left unchanged. -/
theorem maid_update_no_fields_rejected (st : MaidState) (id : String) (newKey : String) :
    (maidUpdate st id (.multipart { name := none, image := none, isInstaxRaw := none }) newKey =
      (.error (400, "No updatable fields provided."), st)) ∧
    (∀ body : MaidPatchJson, body.name = none → body.isInstaxAvailable = none →
      maidUpdate st id (.json (some body)) newKey = (.error (400, "Invalid request body."), st)) := by
  constructor
  · rfl
  · intro body h1 h2
    simp [maidUpdate, resolveMaidPatch, h1, h2]

/-- Witness for the amended C5 at a concrete input. -/
theorem maid_update_no_fields_rejected_witness :
    maidUpdate stC5 "m1" (.json (some { name := none, isInstaxAvailable := none })) "k" =
      (.error (400, "Invalid request body."), stC5) :=
  (maid_update_no_fields_rejected stC5 "m1" "k").2
    { name := none, isInstaxAvailable := none } rfl rfl

end MaidBackend

namespace MaidBackend

/-! ### C2 and C4: user registration and update (src/routes/users.ts) -/

/-- `maids` and `user` tables seen by the user routes. -/
structure Db where
  maids : List MaidRow
  users : List UserRow
deriving Repr, DecidableEq

/-- `sanitizeStatus` from users.ts: undefined stays undefined, null stays
null, a string becomes its trim, or null when the trim is empty.  The outer
`Option` is `undefined`, the inner one `null`. -/
def sanitizeStatus (v : Option (Option String)) : Option (Option String) :=
  match v with
  | none => none
  | some none => some none
  | some (some s) => some (if 0 < (jsTrim s).length then some (jsTrim s) else none)

/-- The message template of `validateMaidReference`. -/
def referenceErrorMessage (fieldName : String) : String :=
  fieldName ++ " does not reference an existing maid."

/-- `validateMaidReference` from users.ts: `undefined` and `null` pass,
otherwise the maid must exist, else a field-named message is returned. -/
def validateMaidReference (maidsL : List MaidRow) (maidId : Option (Option String))
    (fieldName : String) : Option String :=
  match maidId with
  | none => none
  | some none => none
  | some (some m) =>
    if maidsL.any (fun x => x.id = m) then none
    else some (referenceErrorMessage fieldName)

/-- zod validation of the create body status field
(`max 200`, trim non-empty). -/
def statusBodyValid (status : Option String) : Bool :=
  match status with
  | some s => 0 < (jsTrim s).length && s.length ≤ 200
  | none => true

/-- The update payload applied to the stored row by POST /api/users/:id
when the id already exists: overwrite maid/seat, null the instax maid,
revalidate, keep the existing name (`existing.name ?? ''`, and `name` is a
NOT NULL column), refresh `updated_at`, and set the status only when the
request carried one. -/
def userCreatePayload (existing : UserRow) (maidId : String) (seatId : Int)
    (sanitized : Option (Option String)) (now : Nat) (u : UserRow) : UserRow :=
  { u with
    maidId := some maidId,
    seatId := some seatId,
    instaxMaidId := none,
    isValid := true,
    name := existing.name,
    updatedAt := now,
    status := (match sanitized with | some st => st | none => u.status) }

/-- POST /api/users/:id: validate the body, validate `maid_id` against the
maids table, then upsert — an existing row is overwritten via
`userCreatePayload`, otherwise a fresh row with empty name is inserted. -/
def userCreate (db : Db) (id : String) (seatId : Int) (maidId : String)
    (status : Option String) (now : Nat) :
    Except (Nat × String) (String × UserRow) × Db :=
  if seatId < 1 ∨ statusBodyValid status = false then
    (.error (400, "Invalid request body."), db)
  else
    match validateMaidReference db.maids (some (some maidId)) "maid_id" with
    | some msg => (.error (400, msg), db)
    | none =>
      let sanitized := sanitizeStatus (status.map some)
      match db.users.find? (fun u => u.id = id) with
      | some existing =>
        (.ok ("User registered successfully.",
          userCreatePayload existing maidId seatId sanitized now existing),
         { db with users := db.users.map (fun u =>
             if u.id = id then userCreatePayload existing maidId seatId sanitized now u else u) })
      | none =>
        let row : UserRow :=
          { id := id, name := "",
            status := (match sanitized with | some st => st | none => none),
            maidId := some maidId, instaxMaidId := none, seatId := some seatId,
            isValid := true, createdAt := now, updatedAt := now }
        (.ok ("User registered successfully.", row),
         { db with users := db.users ++ [row] })

/-- PATCH /api/users/:id body before zod validation: the outer `Option` is
`undefined` (field absent), the inner one `null`. -/
structure UpdateUserBody where
  name : Option String
  maidId : Option (Option String)
  instaxMaidId : Option (Option String)
  seatId : Option (Option Int)
  status : Option (Option String)
  isValid : Option Bool
deriving Repr, DecidableEq

/-- zod validation of the update body: `name` min length 1, `seat_id`
min 1, status max 200 / trim non-empty, and at least one field present. -/
def updateUserBodyValid (b : UpdateUserBody) : Bool :=
  (match b.name with | some n => 1 ≤ n.length | none => true) &&
  (match b.seatId with | some (some s) => 1 ≤ s | _ => true) &&
  (match b.status with
   | some (some s) => 0 < (jsTrim s).length && s.length ≤ 200
   | _ => true) &&
  (b.name.isSome || b.maidId.isSome || b.instaxMaidId.isSome ||
   b.seatId.isSome || b.status.isSome || b.isValid.isSome)

/-- The `updateValues` assembly of PATCH /api/users/:id applied to a row:
each supplied field overwrites the column (name trimmed, status
sanitized). -/
def userUpdateVals (b : UpdateUserBody) (u : UserRow) : UserRow :=
  let u1 := match b.name with
    | some n => { u with name := jsTrim n }
    | none => u
  let u2 := match b.maidId with
    | some v => { u1 with maidId := v }
    | none => u1
  let u3 := match b.instaxMaidId with
    | some v => { u2 with instaxMaidId := v }
    | none => u2
  let u4 := match b.seatId with
    | some v => { u3 with seatId := v }
    | none => u3
  let u5 := match b.status with
    | some v => { u4 with status := ((sanitizeStatus (some v)).getD none) }
    | none => u4
  match b.isValid with
  | some bv => { u5 with isValid := bv }
  | none => u5

/-- PATCH /api/users/:id: validate the body, look the user up (404),
validate `maid_id` then `instax_maid_id` against the maids table, then
apply the supplied fields and refresh `updated_at` (the no-field branch is
unreachable because the zod refine demands at least one field). -/
def userUpdate (db : Db) (id : String) (b : UpdateUserBody) (now : Nat) :
    Except (Nat × String) (String × UserRow) × Db :=
  if updateUserBodyValid b = false then (.error (400, "Invalid request body."), db)
  else
    match db.users.find? (fun u => u.id = id) with
    | none => (.error (404, "User not found."), db)
    | some existing =>
      match validateMaidReference db.maids b.maidId "maid_id" with
      | some msg => (.error (400, msg), db)
      | none =>
        match validateMaidReference db.maids b.instaxMaidId "instax_maid_id" with
        | some msg => (.error (400, msg), db)
        | none =>
          if b.name.isSome || b.maidId.isSome || b.instaxMaidId.isSome ||
              b.seatId.isSome || b.status.isSome || b.isValid.isSome then
            (.ok ("User updated successfully.", { userUpdateVals b existing with updatedAt := now }),
             { db with users := db.users.map (fun u =>
                 if u.id = id then { userUpdateVals b u with updatedAt := now } else u) })
          else
            (.ok ("No changes applied.", existing), db)

end MaidBackend

namespace MaidBackend

/-- C2: User create is an upsert — when the id exists the stored row gets
the new maid/seat, a nulled instax maid, is_valid true, and keeps its name;
when the id is fresh, a row with empty name is inserted. -/
theorem user_create_upsert (db : Db) (id : String) (seatId : Int) (maidId : String)
    (status : Option String) (now : Nat)
    (hseat : 1 ≤ seatId)
    (hstatus : statusBodyValid status = true)
    (hmaid : db.maids.any (fun x => x.id = maidId) = true) :
    (∀ ex, db.users.find? (fun u => u.id = id) = some ex →
      ∃ row, (userCreate db id seatId maidId status now).2.users.find?
          (fun u => u.id = id) = some row ∧
        row.maidId = some maidId ∧ row.seatId = some seatId ∧
        row.instaxMaidId = none ∧ row.isValid = true ∧ row.name = ex.name) ∧
    (db.users.find? (fun u => u.id = id) = none →
      ∃ row, (userCreate db id seatId maidId status now).2.users.find?
          (fun u => u.id = id) = some row ∧
        row.name = "" ∧ row.maidId = some maidId ∧ row.seatId = some seatId ∧
        row.instaxMaidId = none ∧ row.isValid = true) := by
  have hc : ¬ (seatId < 1 ∨ statusBodyValid status = false) := by
    push_neg
    exact ⟨by omega, by simp [hstatus]⟩
  have hval : validateMaidReference db.maids (some (some maidId)) "maid_id" = none := by
    simp [validateMaidReference, hmaid]
  constructor
  · intro ex hex
    have h2 : (userCreate db id seatId maidId status now).2.users =
        db.users.map (fun u =>
          if u.id = id then
            userCreatePayload ex maidId seatId (sanitizeStatus (status.map some)) now u
          else u) := by
      simp [userCreate, hc, hval, hex]
    refine ⟨userCreatePayload ex maidId seatId (sanitizeStatus (status.map some)) now ex,
      ?_, by simp [userCreatePayload], by simp [userCreatePayload],
      by simp [userCreatePayload], by simp [userCreatePayload],
      by simp [userCreatePayload]⟩
    rw [h2]
    have hexid : ex.id = id := by simpa using List.find?_some hex
    have hstep := find?_map_of_pred db.users
      (fun u => u.id = id) (fun u => u.id = id)
      (fun u => if u.id = id then
        userCreatePayload ex maidId seatId (sanitizeStatus (status.map some)) now u else u)
      (fun a => by by_cases h : a.id = id <;> simp [h, userCreatePayload]) ex hex
    rw [hstep]
    simp [hexid]
  · intro hnone
    have h3 : (userCreate db id seatId maidId status now).2.users =
        db.users ++
          [{ id := id, name := "",
             status := (match sanitizeStatus (status.map some) with
               | some st => st
               | none => none),
             maidId := some maidId, instaxMaidId := none, seatId := some seatId,
             isValid := true, createdAt := now, updatedAt := now }] := by
      simp [userCreate, hc, hval, hnone]
    refine ⟨{ id := id, name := "",
              status := (match sanitizeStatus (status.map some) with
                | some st => st
                | none => none),
              maidId := some maidId, instaxMaidId := none, seatId := some seatId,
              isValid := true, createdAt := now, updatedAt := now },
      ?_, rfl, rfl, rfl, rfl, rfl⟩
    rw [h3, List.find?_append, hnone]
    simp

/-- Concrete maid for the C2/C4 examples. -/
def maidC2 : MaidRow :=
  { id := "m1", name := "Mia", imageUrl := none, isActive := true, isInstaxAvailable := false }

/-- Concrete user for the C2/C4 examples: note the non-empty name, the
stale instax maid and the invalid flag that re-registration must reset. -/
def userC2 : UserRow :=
  { id := "u1", name := "Taro", status := some "hi", maidId := none,
    instaxMaidId := some "m1", seatId := some 3, isValid := false,
    createdAt := 1, updatedAt := 2 }

/-- Concrete database for the C2/C4 examples. -/
def dbC2 : Db := { maids := [maidC2], users := [userC2] }

/-- Witness for C2 at a concrete input: re-registering the existing user
"u1" at seat 12 with maid "m1". -/
theorem user_create_upsert_witness :
    ∃ row, (userCreate dbC2 "u1" 12 "m1" none 9).2.users.find?
        (fun u => u.id = "u1") = some row ∧
      row.maidId = some "m1" ∧ row.seatId = some 12 ∧
      row.instaxMaidId = none ∧ row.isValid = true ∧ row.name = userC2.name :=
  (user_create_upsert dbC2 "u1" 12 "m1" none 9 (by decide) (by decide) (by decide)).1
    userC2 (by decide)

/-- C4: any user create or update whose payload references a maid id (or
instax maid id) absent from the maids table fails with a 400 reference
error naming the offending field, and the database is left untouched. -/
theorem user_reference_error (db : Db) (id : String) (now : Nat) :
    (∀ seatId maidId status, 1 ≤ seatId → statusBodyValid status = true →
      db.maids.any (fun x => x.id = maidId) = false →
      userCreate db id seatId maidId status now =
        (.error (400, "maid_id does not reference an existing maid."), db)) ∧
    (∀ b : UpdateUserBody, updateUserBodyValid b = true →
      ∀ ex, db.users.find? (fun u => u.id = id) = some ex →
        (∀ m, b.maidId = some (some m) →
          db.maids.any (fun x => x.id = m) = false →
          userUpdate db id b now =
            (.error (400, "maid_id does not reference an existing maid."), db)) ∧
        (validateMaidReference db.maids b.maidId "maid_id" = none →
          ∀ m, b.instaxMaidId = some (some m) →
          db.maids.any (fun x => x.id = m) = false →
          userUpdate db id b now =
            (.error (400, "instax_maid_id does not reference an existing maid."), db))) := by
  have hmsg1 : referenceErrorMessage "maid_id" =
      "maid_id does not reference an existing maid." := by decide
  have hmsg2 : referenceErrorMessage "instax_maid_id" =
      "instax_maid_id does not reference an existing maid." := by decide
  constructor
  · intro seatId maidId status hseat hstatus hmiss
    have hc : ¬ (seatId < 1 ∨ statusBodyValid status = false) := by
      push_neg
      exact ⟨by omega, by simp [hstatus]⟩
    have hval : validateMaidReference db.maids (some (some maidId)) "maid_id" =
        some (referenceErrorMessage "maid_id") := by
      simp [validateMaidReference, hmiss]
    simp [userCreate, hc, hval, hmsg1]
  · intro b hbody ex hex
    have hb : ¬ updateUserBodyValid b = false := by simp [hbody]
    constructor
    · intro m hm hmiss
      have hval1 : validateMaidReference db.maids b.maidId "maid_id" =
          some (referenceErrorMessage "maid_id") := by
        simp [validateMaidReference, hm, hmiss]
      simp [userUpdate, hb, hex, hval1, hmsg1]
    · intro hval1 m hm hmiss
      have hval2 : validateMaidReference db.maids b.instaxMaidId "instax_maid_id" =
          some (referenceErrorMessage "instax_maid_id") := by
        simp [validateMaidReference, hm, hmiss]
      simp [userUpdate, hb, hex, hval1, hval2, hmsg2]

/-- Update body referencing a missing instax maid, for the C4 witness. -/
def bodyC4 : UpdateUserBody :=
  { name := none, maidId := none, instaxMaidId := some (some "missing"),
    seatId := none, status := none, isValid := some true }

/-- Witness for C4 at concrete inputs: a create referencing the missing
maid "ghost" and an update referencing the missing instax maid "missing",
both rejected with the database untouched. -/
theorem user_reference_error_witness :
    (userCreate dbC2 "u1" 12 "ghost" none 9 =
      (.error (400, "maid_id does not reference an existing maid."), dbC2)) ∧
    (userUpdate dbC2 "u1" bodyC4 9 =
      (.error (400, "instax_maid_id does not reference an existing maid."), dbC2)) :=
  ⟨(user_reference_error dbC2 "u1" 9).1 12 "ghost" none (by decide) (by decide) (by decide),
   (((user_reference_error dbC2 "u1" 9).2 bodyC4 (by decide) userC2 (by decide)).2)
     (by decide) "missing" rfl (by decide)⟩

end MaidBackend

namespace MaidBackend

/-! ### C1: POST /api/menus (src/routes/menus.ts) -/

/-- `menu` table plus the R2 bucket contents. -/
structure MenuState where
  menus : List MenuRow
  blobs : List String
deriving Repr, DecidableEq

/-- SQLite AUTOINCREMENT: the id handed to a fresh insert, strictly larger
than every existing id. -/
def nextMenuId (l : List MenuRow) : Nat :=
  l.foldr (fun m a => max m.id a) 0 + 1

/-- The `description` normalization of POST /api/menus: a string field is
trimmed, with the empty trim stored as null; an absent field stays null. -/
def menuDescription (descRaw : Option String) : Option String :=
  match descRaw with
  | some d => if 0 < (jsTrim d).length then some (jsTrim d) else none
  | none => none

/-- The record inserted by the first step of POST /api/menus (image key
still null, timestamps defaulted to the request clock). -/
def menuInsertRow (l : List MenuRow) (now : Nat) (nr : String) (stk : Int)
    (descRaw : Option String) : MenuRow :=
  { id := nextMenuId l, name := jsTrim nr, description := menuDescription descRaw,
    stock := stk, imageUrl := none, createdAt := now, updatedAt := now }

/-- POST /api/menus: multipart field validation (name trim non-empty,
stock a non-negative integer, image file non-empty, description trimmed
with empty normalized to null), then the compensated three-step write —
insert the record, upload the blob, update the record with the key.  The
`uploadFails` / `updateFails` flags model the `catch` around the upload and
the follow-up update: on failure the handler deletes the inserted record
and, when the key was already stored, deletes the blob, answering 500. -/
def menuCreate (st : MenuState) (now : Nat) (key : String)
    (nameRaw : Option String) (stockRaw : Option Int) (image : Option FileData)
    (descRaw : Option String) (uploadFails updateFails : Bool) :
    Except (Nat × String) MenuRow × MenuState :=
  match nameRaw with
  | none => (.error (400, "Name is required."), st)
  | some nr =>
    if (jsTrim nr).length = 0 then (.error (400, "Name is required."), st)
    else
      match stockRaw with
      | none => (.error (400, "Stock is required."), st)
      | some stk =>
        if stk < 0 then (.error (400, "Stock must be a non-negative integer."), st)
        else
          match image with
          | none => (.error (400, "Image file is required."), st)
          | some img =>
            if img.size = 0 then (.error (400, "Image file is required."), st)
            else
              let menuId := nextMenuId st.menus
              let inserted : MenuRow := menuInsertRow st.menus now nr stk descRaw
              let st1 : MenuState := { st with menus := st.menus ++ [inserted] }
              if uploadFails then
                (.error (500, "Failed to create menu."),
                 { st1 with menus := st1.menus.filter (fun m => m.id ≠ menuId) })
              else
                let st2 : MenuState := { st1 with blobs := key :: st1.blobs }
                if updateFails then
                  (.error (500, "Failed to create menu."),
                   { st2 with
                     menus := st2.menus.filter (fun m => m.id ≠ menuId),
                     blobs := st2.blobs.erase key })
                else
                  (.ok { inserted with imageUrl := some key, updatedAt := now },
                   { st2 with menus := st2.menus.map (fun m =>
                       if m.id = menuId then { m with imageUrl := some key, updatedAt := now }
                       else m) })

end MaidBackend

namespace MaidBackend

theorem menu_id_le_foldr_max (l : List MenuRow) :
    ∀ m ∈ l, m.id ≤ l.foldr (fun m a => max m.id a) 0 := by
  induction l with
  | nil => simp
  | cons a t ih =>
    intro m hm
    rcases List.mem_cons.mp hm with hma | hmt
    · subst hma
      exact Nat.le_max_left _ _
    · exact Nat.le_trans (ih m hmt) (Nat.le_max_right _ _)

theorem nextMenuId_fresh (l : List MenuRow) : ∀ m ∈ l, m.id ≠ nextMenuId l := by
  intro m hm
  have h := menu_id_le_foldr_max l m hm
  unfold nextMenuId
  omega

theorem filter_ne_nextMenuId (l : List MenuRow) (x : MenuRow)
    (hx : x.id = nextMenuId l) :
    (l ++ [x]).filter (fun m => m.id ≠ nextMenuId l) = l := by
  rw [List.filter_append]
  have h1 : l.filter (fun m => m.id ≠ nextMenuId l) = l :=
    List.filter_eq_self.mpr (fun m hm => by simpa using nextMenuId_fresh l m hm)
  have h2 : [x].filter (fun m => m.id ≠ nextMenuId l) = [] := by simp [hx]
  rw [h1, h2, List.append_nil]

/-- C1: a menu create whose upload or follow-up update throws answers a
500 error and leaves both the menus table and the blob store exactly as
before — the inserted record is deleted and the blob, when stored, is
deleted too, so no record with the fresh id remains. -/
theorem menu_create_failure_rolls_back (st : MenuState) (now : Nat) (key : String)
    (nr : String) (stk : Int) (img : FileData) (descRaw : Option String)
    (u v : Bool)
    (hname : 0 < (jsTrim nr).length) (hstk : 0 ≤ stk) (himg : img.size ≠ 0)
    (hfail : u = true ∨ v = true) :
    (menuCreate st now key (some nr) (some stk) (some img) descRaw u v).1 =
      .error (500, "Failed to create menu.") ∧
    (menuCreate st now key (some nr) (some stk) (some img) descRaw u v).2.menus = st.menus ∧
    (menuCreate st now key (some nr) (some stk) (some img) descRaw u v).2.blobs = st.blobs ∧
    ∀ m ∈ (menuCreate st now key (some nr) (some stk) (some img) descRaw u v).2.menus,
      m.id ≠ nextMenuId st.menus := by
  have h1 : ¬ (jsTrim nr).length = 0 := by omega
  have h2 : ¬ stk < 0 := by omega
  have hfilter := filter_ne_nextMenuId st.menus (menuInsertRow st.menus now nr stk descRaw) rfl
  cases u with
  | true =>
    have hrun : menuCreate st now key (some nr) (some stk) (some img) descRaw true v =
        (.error (500, "Failed to create menu."),
         ({ menus := (st.menus ++ [menuInsertRow st.menus now nr stk descRaw]).filter
              (fun m => m.id ≠ nextMenuId st.menus),
            blobs := st.blobs } : MenuState)) := by
      simp [menuCreate, h1, h2, himg]
    have hmenus : (menuCreate st now key (some nr) (some stk) (some img) descRaw true v).2.menus
        = st.menus := by
      rw [hrun]
      exact hfilter
    refine ⟨by rw [hrun], hmenus, by rw [hrun], ?_⟩
    intro m hm
    rw [hmenus] at hm
    exact nextMenuId_fresh st.menus m hm
  | false =>
    have hv : v = true := by
      rcases hfail with h | h
      · exact absurd h (by simp)
      · exact h
    subst hv
    have hrun : menuCreate st now key (some nr) (some stk) (some img) descRaw false true =
        (.error (500, "Failed to create menu."),
         ({ menus := (st.menus ++ [menuInsertRow st.menus now nr stk descRaw]).filter
              (fun m => m.id ≠ nextMenuId st.menus),
            blobs := (key :: st.blobs).erase key } : MenuState)) := by
      simp [menuCreate, h1, h2, himg]
    have hmenus : (menuCreate st now key (some nr) (some stk) (some img) descRaw false true).2.menus
        = st.menus := by
      rw [hrun]
      exact hfilter
    refine ⟨by rw [hrun], hmenus,
      by rw [hrun]; exact List.erase_cons_head key st.blobs, ?_⟩
    intro m hm
    rw [hmenus] at hm
    exact nextMenuId_fresh st.menus m hm

/-- Concrete state for the C1 witness. -/
def stC1 : MenuState :=
  { menus := [{ id := 1, name := "Omurice", description := none, stock := 10,
                imageUrl := some "menus/1/a.jpg", createdAt := 0, updatedAt := 0 }],
    blobs := ["menus/1/a.jpg"] }

/-- Witness for C1 at a concrete input: an upload failure rolls the state
back. -/
theorem menu_create_failure_rolls_back_witness :
    (menuCreate stC1 5 "menus/2/b.jpg" (some "Parfait") (some 3)
        (some { fname := "b.jpg", size := 42 }) none true false).1 =
      .error (500, "Failed to create menu.") ∧
    (menuCreate stC1 5 "menus/2/b.jpg" (some "Parfait") (some 3)
        (some { fname := "b.jpg", size := 42 }) none true false).2.menus = stC1.menus ∧
    (menuCreate stC1 5 "menus/2/b.jpg" (some "Parfait") (some 3)
        (some { fname := "b.jpg", size := 42 }) none true false).2.blobs = stC1.blobs ∧
    ∀ m ∈ (menuCreate stC1 5 "menus/2/b.jpg" (some "Parfait") (some 3)
        (some { fname := "b.jpg", size := 42 }) none true false).2.menus,
      m.id ≠ nextMenuId stC1.menus :=
  menu_create_failure_rolls_back stC1 5 "menus/2/b.jpg" "Parfait" 3
    { fname := "b.jpg", size := 42 } none true false
    (by decide) (by decide) (by decide) (Or.inl rfl)

end MaidBackend

namespace MaidBackend

/-! ### C3: PATCH /api/instax (instax image replacement with archival) -/

/-- `instax` and `instax_history` tables plus the R2 bucket contents. -/
structure InstaxState where
  instaxes : List InstaxRow
  histories : List InstaxHistoryRow
  blobs : List String
deriving Repr, DecidableEq

/-- SQLite AUTOINCREMENT for `instax_history`. -/
def nextHistoryId (l : List InstaxHistoryRow) : Nat :=
  l.foldr (fun h a => max h.id a) 0 + 1

/-- PATCH /api/instax: parse `instax_id` (positive integer) and the file
(non-empty), look the record up (404), upload the new blob, and when the
record carried a prior image key insert an InstaxHistory row with that old
key — the old blob itself is not deleted — before overwriting the record
with the new key. -/
def instaxUpdate (st : InstaxState) (instaxId : Int) (file : Option FileData)
    (newKey : String) (now : Nat) : Except (Nat × String) InstaxRow × InstaxState :=
  if instaxId < 1 then
    (.error (400, "instax_id must be a positive integer value."), st)
  else
    match file with
    | none => (.error (400, "instax file is required."), st)
    | some f =>
      if f.size = 0 then (.error (400, "instax file is required."), st)
      else
        match st.instaxes.find? (fun i => (i.id : Int) = instaxId) with
        | none => (.error (404, "Instax not found."), st)
        | some existing =>
          let st1 : InstaxState := { st with blobs := newKey :: st.blobs }
          let st2 : InstaxState :=
            match existing.imageUrl with
            | some k =>
              { st1 with histories := st1.histories ++
                  [{ id := nextHistoryId st1.histories, instaxId := existing.id,
                     imageUrl := k, archivedAt := now }] }
            | none => st1
          (.ok { existing with imageUrl := some newKey },
           { st2 with instaxes := st2.instaxes.map (fun i =>
               if i.id = existing.id then { i with imageUrl := some newKey } else i) })

end MaidBackend

namespace MaidBackend

/-- C3: updating an existing instax uploads a new blob and, exactly when
the record carried a prior image key, appends exactly one InstaxHistory row
carrying that old key; the blob store only grows (the old blob is not
deleted) and the record ends up holding the new key. -/
theorem instax_update_archives_old_key (st : InstaxState) (instaxId : Int)
    (f : FileData) (newKey : String) (now : Nat) (ex : InstaxRow)
    (hid : 1 ≤ instaxId) (hsize : f.size ≠ 0)
    (hfind : st.instaxes.find? (fun i => (i.id : Int) = instaxId) = some ex) :
    ((instaxUpdate st instaxId (some f) newKey now).1 =
      .ok { ex with imageUrl := some newKey }) ∧
    (∀ k, ex.imageUrl = some k →
      (instaxUpdate st instaxId (some f) newKey now).2.histories =
        st.histories ++ [{ id := nextHistoryId st.histories, instaxId := ex.id,
                           imageUrl := k, archivedAt := now }]) ∧
    (ex.imageUrl = none →
      (instaxUpdate st instaxId (some f) newKey now).2.histories = st.histories) ∧
    ((instaxUpdate st instaxId (some f) newKey now).2.blobs = newKey :: st.blobs) ∧
    ((instaxUpdate st instaxId (some f) newKey now).2.instaxes.find?
        (fun i => (i.id : Int) = instaxId) =
      some { ex with imageUrl := some newKey }) := by
  have hlt : ¬ instaxId < 1 := by omega
  refine ⟨?_, ?_, ?_, ?_, ?_⟩
  · simp [instaxUpdate, hlt, hsize, hfind]
  · intro k hk
    simp [instaxUpdate, hlt, hsize, hfind, hk]
  · intro hk
    simp [instaxUpdate, hlt, hsize, hfind, hk]
  · cases hk : ex.imageUrl with
    | none => simp [instaxUpdate, hlt, hsize, hfind, hk]
    | some k => simp [instaxUpdate, hlt, hsize, hfind, hk]
  · have hexid : (ex.id : Int) = instaxId := by simpa using List.find?_some hfind
    have h2 : (instaxUpdate st instaxId (some f) newKey now).2.instaxes =
        st.instaxes.map (fun i =>
          if i.id = ex.id then { i with imageUrl := some newKey } else i) := by
      cases hk : ex.imageUrl with
      | none => simp [instaxUpdate, hlt, hsize, hfind, hk]
      | some k => simp [instaxUpdate, hlt, hsize, hfind, hk]
    rw [h2]
    have hstep := find?_map_of_pred st.instaxes
      (fun i => (i.id : Int) = instaxId) (fun i => (i.id : Int) = instaxId)
      (fun i => if i.id = ex.id then { i with imageUrl := some newKey } else i)
      (fun a => by by_cases h : a.id = ex.id <;> simp [h]) ex hfind
    rw [hstep]
    simp

/-- Concrete state for the C3 witness: instax 7 with a prior image key. -/
def stC3 : InstaxState :=
  { instaxes := [{ id := 7, userId := "u1", maidId := "m1",
                   imageUrl := some "instax/u1/old.jpg", createdAt := 0 }],
    histories := [],
    blobs := ["instax/u1/old.jpg"] }

/-- Witness for C3 at a concrete input: replacing the image of instax 7
archives the old key, keeps the old blob, and stores the new key. -/
theorem instax_update_archives_old_key_witness :
    ((instaxUpdate stC3 7 (some { fname := "new.jpg", size := 5 }) "instax/u1/new.jpg" 9).2.histories =
      stC3.histories ++ [{ id := nextHistoryId stC3.histories, instaxId := 7,
                           imageUrl := "instax/u1/old.jpg", archivedAt := 9 }]) ∧
    ((instaxUpdate stC3 7 (some { fname := "new.jpg", size := 5 }) "instax/u1/new.jpg" 9).2.blobs =
      "instax/u1/new.jpg" :: stC3.blobs) :=
  ⟨((instax_update_archives_old_key stC3 7 { fname := "new.jpg", size := 5 }
      "instax/u1/new.jpg" 9
      { id := 7, userId := "u1", maidId := "m1",
        imageUrl := some "instax/u1/old.jpg", createdAt := 0 }
      (by decide) (by decide) (by decide)).2.1) "instax/u1/old.jpg" rfl,
   (instax_update_archives_old_key stC3 7 { fname := "new.jpg", size := 5 }
      "instax/u1/new.jpg" 9
      { id := 7, userId := "u1", maidId := "m1",
        imageUrl := some "instax/u1/old.jpg", createdAt := 0 }
      (by decide) (by decide) (by decide)).2.2.2.1⟩

end MaidBackend
